import Mathlib

/- Shallow embedding of the downsat ETL composition core (src/downsat/etl/):
   the pipeline operator algebra, the multi-key fan-out, the cache, query and
   context layers, and the metadata side-table, together with theorems checking
   the specification claims about them. Python exceptions are modelled as
   `none` / `Except.error`; Python dicts as functional stores. -/

namespace DownsatEtl

variable {κ α β ι γ η ν : Type}

/-- Index passed to a `MultiKeyDataSource.__getitem__`: a single key or a tuple
of keys (src/downsat/etl/abc.py, `key | tuple[key, ...]`). -/
inductive PKey (κ : Type) where
  | single (k : κ)
  | multi (ks : List κ)
deriving DecidableEq

/-- Result of a `MultiKeyDataSource.__getitem__`: a single value or a tuple of
values. -/
inductive PVal (α : Type) where
  | single (v : α)
  | multi (vs : List α)
deriving DecidableEq

/-- Run context record (src/downsat/etl/context.py, `RunContext`): the desired
and maximal number of workers for parallel jobs; `none` models Python `None`. -/
structure RunContext where
  num_workers : Option Int
  max_workers : Option Int
deriving DecidableEq

/-- `RunContext.get_num_workers` (context.py lines 34-42): `num_workers` if
`max_workers` is unset, `max_workers` if `num_workers` is unset, the minimum of
the two when both are set, `None` when neither is. -/
def RunContext.get_num_workers (c : RunContext) : Option Int :=
  match c.num_workers with
  | none => c.max_workers
  | some n =>
    match c.max_workers with
    | none => some n
    | some m => some (min n m)

/-- Worker count after the `None -> 1` defaulting at the start of
`RunContext.map` (context.py lines 57-66). -/
def RunContext.resolvedWorkers (c : RunContext) : Int :=
  (c.get_num_workers).getD 1

/-- Condition `num_workers > 1 and len(container) > 1` selecting the parallel
branch of `RunContext.map` (context.py line 68). -/
def RunContext.usesParallel (c : RunContext) (n : Nat) : Bool :=
  decide (1 < c.resolvedWorkers) && decide (1 < n)

/-- Serial branch of `RunContext.map` (context.py line 73): the list
comprehension `[fun(item) for item in container]`; an exception raised by `fun`
(modelled as `none`) aborts the whole call. -/
def serialMap (f : α → Option β) : List α → Option (List β)
  | [] => some []
  | x :: xs =>
    match f x with
    | none => none
    | some y => (serialMap f xs).map (fun ys => y :: ys)

/-- Modelled from the spec: the parallel branch of `RunContext.map` delegates to
`joblib.Parallel` (context.py line 70), an external library that is not part of
this repository. Per the spec (section 4.8) the pool returns its results "in
original input order regardless of completion order" and a worker exception
propagates to the caller, so it is modelled as the order-preserving
element-wise map. -/
def joblibParallelMap (_n_jobs : Int) (f : α → Option β) (xs : List α) :
    Option (List β) :=
  serialMap f xs

/-- `RunContext.map` (context.py lines 44-75): apply `f` to all elements, using
the worker pool when both the resolved worker count and the container length
exceed 1, and the serial comprehension otherwise. -/
def RunContext.map (c : RunContext) (f : α → Option β) (xs : List α) :
    Option (List β) :=
  if c.usesParallel xs.length then joblibParallelMap c.resolvedWorkers f xs
  else serialMap f xs

/-- Getitem of the class produced by `multikey_ds`
(src/downsat/etl/class_transforms.py lines 132-142): a tuple key fans out over
`RunContext.map`, a single key delegates to the wrapped single-key getitem. -/
def multikey_getitem (c : RunContext) (get1 : κ → Option α) :
    PKey κ → Option (PVal α)
  | PKey.single k => (get1 k).map PVal.single
  | PKey.multi ks => (c.map get1 ks).map PVal.multi

/-- Single-key branch of `_ModifiedOutputDataSource.__getitem__` (abc.py lines
431-437): load from the datasource, then apply the output transform. -/
def modifiedOutputGet1 (ds : κ → Option α) (t : α → β) (k : κ) : Option β :=
  match ds k with
  | none => none
  | some data => some (t data)

/-- `_ModifiedOutputDataSource.__getitem__` (abc.py lines 419-439): the tuple
branch fans the single-key branch out over `RunContext.map`. -/
def ModifiedOutputDataSource.getitem (c : RunContext) (ds : κ → Option α)
    (t : α → β) : PKey κ → Option (PVal β)
  | PKey.single k => (modifiedOutputGet1 ds t k).map PVal.single
  | PKey.multi ks => (c.map (modifiedOutputGet1 ds t) ks).map PVal.multi

/-- Single-key branch of `_ModifiedInputDataSource.__getitem__` (abc.py lines
376-382): transform the key, then load from the datasource. -/
def modifiedInputGet1 (t : ι → κ) (ds : κ → Option α) (i : ι) : Option α :=
  ds (t i)

/-- `_ModifiedInputDataSource.__getitem__` (abc.py lines 363-384): the tuple
branch fans the single-key branch out over `RunContext.map`. -/
def ModifiedInputDataSource.getitem (c : RunContext) (t : ι → κ)
    (ds : κ → Option α) : PKey ι → Option (PVal α)
  | PKey.single i => (modifiedInputGet1 t ds i).map PVal.single
  | PKey.multi ks => (c.map (modifiedInputGet1 t ds) ks).map PVal.multi

/-- `DataSourceMeta.__rshift__` (abc.py lines 44-62): `S >> T` composes via
`class_transforms.transform_ds_output` (class_transforms.py lines 176-199),
that is, the transform is applied to the datasource's output. -/
def dsRshiftTransform (c : RunContext) (ds : κ → Option α) (t : α → β) :
    PKey κ → Option (PVal β) :=
  ModifiedOutputDataSource.getitem c ds t

/-- `DataSourceMeta.__rrshift__` (abc.py lines 64-82): `T >> S` composes via
`class_transforms.transform_ds_input` (class_transforms.py lines 148-173),
that is, the transform is applied to the key before fetching. -/
def transformRshiftDS (c : RunContext) (t : ι → κ) (ds : κ → Option α) :
    PKey ι → Option (PVal α) :=
  ModifiedInputDataSource.getitem c t ds

/-- Both branches of `RunContext.map` apply `f` element-wise in input order
(the parallel one by the joblib contract recorded at `joblibParallelMap`). -/
theorem RunContext.map_eq_serialMap (c : RunContext) (f : α → Option β)
    (xs : List α) : c.map f xs = serialMap f xs := by
  unfold RunContext.map joblibParallelMap
  split <;> rfl

/-- When `serialMap` succeeds it returns one result per input element. -/
theorem serialMap_length (f : α → Option β) :
    ∀ (xs : List α) (rs : List β), serialMap f xs = some rs →
      rs.length = xs.length := by
  intro xs
  induction xs with
  | nil =>
    intro rs h
    simp only [serialMap] at h
    cases h
    rfl
  | cons x xs ih =>
    intro rs h
    simp only [serialMap] at h
    cases hx : f x with
    | none => rw [hx] at h; cases h
    | some y =>
      rw [hx] at h
      cases hs : serialMap f xs with
      | none => rw [hs] at h; cases h
      | some ys =>
        rw [hs] at h
        simp only [Option.map_some'] at h
        cases h
        simp [ih ys hs]

/-- When `serialMap` succeeds, the i-th result is `f` applied to the i-th
input, for every index. -/
theorem serialMap_getElem (f : α → Option β) :
    ∀ (xs : List α) (rs : List β), serialMap f xs = some rs →
      ∀ i : Nat, rs[i]? = (xs[i]?).bind f := by
  intro xs
  induction xs with
  | nil =>
    intro rs h i
    simp only [serialMap] at h
    cases h
    simp
  | cons x xs ih =>
    intro rs h i
    simp only [serialMap] at h
    cases hx : f x with
    | none => rw [hx] at h; cases h
    | some y =>
      rw [hx] at h
      cases hs : serialMap f xs with
      | none => rw [hs] at h; cases h
      | some ys =>
        rw [hs] at h
        simp only [Option.map_some'] at h
        cases h
        cases i with
        | zero => simp [hx]
        | succ n => simpa using ih ys hs n

/-- C1. Composition directionality: for every data source `S`, pipeline
transform `T` and key `k`, the composed source `(S >> T)` satisfies
`(S >> T)[k] = T(S[k])` and the composed source `(T >> S)` satisfies
`(T >> S)[k] = S[T(k)]`; and whenever a transform is not the identity there are
a source and a key on which the two compositions observably differ. -/
theorem C1_composition_directionality (c : RunContext) (ds : κ → Option α)
    (t : α → β) (tin : ι → κ) (k : κ) (i : ι) :
    dsRshiftTransform c ds t (PKey.single k) = ((ds k).map t).map PVal.single ∧
    transformRshiftDS c tin ds (PKey.single i) = (ds (tin i)).map PVal.single ∧
    (∀ t2 : γ → γ, (∃ x, t2 x ≠ x) →
      ∃ (ds2 : γ → Option γ) (k2 : γ) (c2 : RunContext),
        dsRshiftTransform c2 ds2 t2 (PKey.single k2) ≠
          transformRshiftDS c2 t2 ds2 (PKey.single k2)) := by
  refine ⟨?_, ?_, ?_⟩
  · show (modifiedOutputGet1 ds t k).map PVal.single = ((ds k).map t).map PVal.single
    unfold modifiedOutputGet1
    cases ds k <;> rfl
  · rfl
  · intro t2 hx
    obtain ⟨x, hx⟩ := hx
    refine ⟨fun _ => some x, x, RunContext.mk none none, ?_⟩
    intro h
    apply hx
    have h2 : (some (PVal.single (t2 x)) : Option (PVal γ)) =
        some (PVal.single x) := h
    simpa using h2

/-- Witness for C1 at concrete inputs: the successor transform is not the
identity, so some source and key distinguish the two composition directions. -/
theorem C1_composition_directionality_witness :
    ∃ (ds2 : Nat → Option Nat) (k2 : Nat) (c2 : RunContext),
      dsRshiftTransform c2 ds2 Nat.succ (PKey.single k2) ≠
        transformRshiftDS c2 Nat.succ ds2 (PKey.single k2) :=
  (C1_composition_directionality (RunContext.mk none none)
      (fun n : Nat => some n) id id 0 0).2.2 Nat.succ ⟨0, by decide⟩

/-- C3. Multi-key fan-out order preservation: a multi-key get over keys `ks`
returns a tuple of the same length whose i-th element is the single-key get of
`ks[i]`, the result is the same for every configured worker count, and when the
resolved worker count is at most 1 or the tuple has at most 1 element the
serial branch is taken. -/
theorem C3_multikey_fanout_order (c : RunContext) (get1 : κ → Option α)
    (ks : List κ) (rs : List α)
    (h : multikey_getitem c get1 (PKey.multi ks) = some (PVal.multi rs)) :
    rs.length = ks.length ∧
    (∀ i : Nat, rs[i]? = (ks[i]?).bind get1) ∧
    (∀ c2 : RunContext,
      multikey_getitem c2 get1 (PKey.multi ks) = some (PVal.multi rs)) ∧
    ((c.resolvedWorkers ≤ 1 ∨ ks.length ≤ 1) →
      c.usesParallel ks.length = false ∧ c.map get1 ks = serialMap get1 ks) := by
  have hser : serialMap get1 ks = some rs := by
    have h2 : (c.map get1 ks).map PVal.multi = some (PVal.multi rs) := h
    rw [RunContext.map_eq_serialMap] at h2
    cases hs : serialMap get1 ks with
    | none => rw [hs] at h2; cases h2
    | some ys =>
      rw [hs] at h2
      simp only [Option.map_some'] at h2
      cases h2
      rfl
  refine ⟨serialMap_length get1 ks rs hser, serialMap_getElem get1 ks rs hser,
    ?_, ?_⟩
  · intro c2
    show (c2.map get1 ks).map PVal.multi = some (PVal.multi rs)
    rw [RunContext.map_eq_serialMap, hser]
    rfl
  · intro hc
    constructor
    · unfold RunContext.usesParallel
      rcases hc with hc | hc
      · simp [hc, not_lt_of_le hc]
      · have : ¬ (1 < ks.length) := by omega
        simp [this]
    · exact RunContext.map_eq_serialMap c get1 ks

/-- Witness for C3: fan-out of the squaring source over keys `(1, 2, 3)` with
four configured workers returns `(1, 4, 9)` in input order. -/
theorem C3_multikey_fanout_order_witness :
    multikey_getitem (RunContext.mk (some 4) none) (fun n : Nat => some (n * n))
        (PKey.multi [1, 2, 3]) = some (PVal.multi [1, 4, 9]) ∧
    ([1, 4, 9] : List Nat).length = ([1, 2, 3] : List Nat).length ∧
    (∀ i : Nat, ([1, 4, 9] : List Nat)[i]? =
      (([1, 2, 3] : List Nat)[i]?).bind (fun n : Nat => some (n * n))) := by
  have h : multikey_getitem (RunContext.mk (some 4) none)
      (fun n : Nat => some (n * n)) (PKey.multi [1, 2, 3]) =
      some (PVal.multi [1, 4, 9]) := by decide
  have hc := C3_multikey_fanout_order (RunContext.mk (some 4) none)
    (fun n : Nat => some (n * n)) [1, 2, 3] [1, 4, 9] h
  exact ⟨h, hc.1, hc.2.1⟩

/-- Cache sink of `_CachedDataSource`: a mutable `Dataset`
(src/downsat/etl/protocols.py, `Dataset`) holding current contents per key;
`ins` is how its `__setitem__` stores a value, which may transform it on the
way in (e.g. serialize it to a file). -/
structure Sink (κ α β : Type) where
  contents : κ → Option β
  ins : κ → α → β

/-- `__setitem__` of the cache sink: after `set k v` the sink reports
`ins k v` for key `k` and is unchanged elsewhere. -/
def Sink.set [DecidableEq κ] (s : Sink κ α β) (k : κ) (v : α) : Sink κ α β :=
  Sink.mk (fun k2 => if k2 = k then some (s.ins k v) else s.contents k2) s.ins

/-- Test `self._skip_if is None or not self._skip_if(key, data)` of
`_CachedDataSource.__getitem__` (abc.py line 633), stated as the positive skip
condition: `false` when no skip predicate is set. -/
def skipTriggers (skip : Option (κ → α → Bool)) (k : κ) (v : α) : Bool :=
  match skip with
  | none => false
  | some p => p k v

/-- Single-key branch of `_CachedDataSource.__getitem__` (abc.py lines
622-644). Returns the result (`Sum.inr` when read back from the cache,
`Sum.inl` when the freshly loaded value is returned directly because the skip
predicate triggered), the resulting sink state, and the number of times the
underlying datasource was invoked during the call; `none` models a `KeyError`
propagating out of the call. The tuple branch (line 618) decomposes into these
single-key calls. -/
def cachedGet1 [DecidableEq κ] (ds : κ → Option α)
    (skip : Option (κ → α → Bool)) (s : Sink κ α β) (k : κ) :
    Option ((α ⊕ β) × Sink κ α β × Nat) :=
  match s.contents k with
  | some cachedVal => some (Sum.inr cachedVal, s, 0)
  | none =>
    match ds k with
    | none => none
    | some data =>
      if skipTriggers skip k data then some (Sum.inl data, s, 1)
      else
        match (s.set k data).contents k with
        | some reread => some (Sum.inr reread, s.set k data, 1)
        | none => none

/-- C2. Cache wrapper per-key protocol and at-most-once fill: a miss loads the
source, stores into the sink, and returns the value the sink reports back
after the store (`s.ins k v`, not the in-memory value `v` the source
produced); a second get for the same key returns an equal value from the sink
and does not invoke the source again, so the source is invoked exactly once
across both calls. -/
theorem C2_cache_at_most_once_fill [DecidableEq κ] (ds : κ → Option α)
    (skip : Option (κ → α → Bool)) (s : Sink κ α β) (k : κ) (v : α)
    (hmiss : s.contents k = none) (hload : ds k = some v)
    (hskip : skipTriggers skip k v = false) :
    cachedGet1 ds skip s k = some (Sum.inr (s.ins k v), s.set k v, 1) ∧
    (s.set k v).contents k = some (s.ins k v) ∧
    cachedGet1 ds skip (s.set k v) k =
      some (Sum.inr (s.ins k v), s.set k v, 0) := by
  have hre : (s.set k v).contents k = some (s.ins k v) := by
    unfold Sink.set
    simp
  refine ⟨?_, hre, ?_⟩
  · unfold cachedGet1
    rw [hmiss, hload]
    simp [hskip, hre]
  · unfold cachedGet1
    rw [hre]

/-- Witness for C2 at concrete inputs: the squaring source under a sink that
adds 100 on the way in; the first get of key 3 loads 9 from the source once
and returns the re-read 109, the second get returns 109 from the sink with no
further source invocation. -/
theorem C2_cache_at_most_once_fill_witness :
    (Sink.mk (fun _ : Nat => (none : Option Nat)) (fun _ v => v + 100)).contents
        3 = none ∧
    cachedGet1 (fun n : Nat => some (n * n)) none
        (Sink.mk (fun _ : Nat => (none : Option Nat)) (fun _ v => v + 100)) 3 =
      some (Sum.inr ((Sink.mk (fun _ : Nat => (none : Option Nat))
            (fun _ v => v + 100)).ins 3 9),
        (Sink.mk (fun _ : Nat => (none : Option Nat))
            (fun _ v => v + 100)).set 3 9, 1) ∧
    cachedGet1 (fun n : Nat => some (n * n)) none
        ((Sink.mk (fun _ : Nat => (none : Option Nat))
            (fun _ v => v + 100)).set 3 9) 3 =
      some (Sum.inr ((Sink.mk (fun _ : Nat => (none : Option Nat))
            (fun _ v => v + 100)).ins 3 9),
        (Sink.mk (fun _ : Nat => (none : Option Nat))
            (fun _ v => v + 100)).set 3 9, 0) := by
  have h := C2_cache_at_most_once_fill (fun n : Nat => some (n * n)) none
    (Sink.mk (fun _ : Nat => (none : Option Nat)) (fun _ v => v + 100)) 3 9
    rfl rfl rfl
  exact ⟨rfl, h.1, h.2.2⟩

/-- C5. Skip predicate bypasses cache population: when the skip predicate is
true for the value freshly loaded for key `k`, the get returns that value
directly (`Sum.inl v`) and the sink state is unchanged by the call. -/
theorem C5_skip_bypasses_cache [DecidableEq κ] (ds : κ → Option α)
    (skip : Option (κ → α → Bool)) (s : Sink κ α β) (k : κ) (v : α)
    (hmiss : s.contents k = none) (hload : ds k = some v)
    (hskip : skipTriggers skip k v = true) :
    cachedGet1 ds skip s k = some (Sum.inl v, s, 1) := by
  unfold cachedGet1
  rw [hmiss, hload]
  simp [hskip]

/-- Witness for C5 at concrete inputs: a skip predicate that always triggers
makes the get of key 3 return the freshly loaded 9 directly with the sink left
untouched. -/
theorem C5_skip_bypasses_cache_witness :
    skipTriggers (some (fun (_ : Nat) (_ : Nat) => true)) 3 9 = true ∧
    cachedGet1 (fun n : Nat => some (n * n))
        (some (fun (_ : Nat) (_ : Nat) => true))
        (Sink.mk (fun _ : Nat => (none : Option Nat)) (fun _ v => v + 100)) 3 =
      some (Sum.inl 9,
        Sink.mk (fun _ : Nat => (none : Option Nat)) (fun _ v => v + 100), 1) :=
  ⟨rfl, C5_skip_bypasses_cache (fun n : Nat => some (n * n))
    (some (fun (_ : Nat) (_ : Nat) => true))
    (Sink.mk (fun _ : Nat => (none : Option Nat)) (fun _ v => v + 100)) 3 9
    rfl rfl rfl⟩

/-- Key-value store modelling a plain mutable mapping: used for the query
resolution cache (a `Dataset` from high-level keys to resolved ids) and for
the context and metadata dictionaries. -/
structure Store (η ν : Type) where
  contents : η → Option ν

/-- Empty dictionary `{}`. -/
def Store.empty : Store η ν := Store.mk (fun _ => none)

/-- Dictionary item assignment `d[n] = v`. -/
def Store.set [DecidableEq η] (s : Store η ν) (n : η) (v : ν) : Store η ν :=
  Store.mk (fun n2 => if n2 = n then some v else s.contents n2)

/-- Two stores with the same contents are equal. -/
theorem Store.ext (a b : Store η ν)
    (h : ∀ n, a.contents n = b.contents n) : a = b := by
  cases a
  cases b
  simp only [Store.mk.injEq]
  funext n
  exact h n

/-- Single-key branch of `_QueryDataSource.__getitem__` (abc.py lines
547-567): with a resolution cache configured, a cached resolution is reused,
otherwise `query` runs and its result is stored; without a cache `query` runs
every time; either way the data are then fetched by the resolved id. Returns
the fetched value, the resulting cache state, and the number of `query`
invocations during the call; `none` models a `KeyError` from the fetch. -/
def queryGet1 [DecidableEq η] (dsquery : η → ι) (fetch : ι → Option α)
    (qcache : Option (Store η ι)) (k : η) :
    Option (α × Option (Store η ι) × Nat) :=
  match qcache with
  | some c =>
    match c.contents k with
    | some dataId => (fetch dataId).map (fun a => (a, some c, 0))
    | none =>
      (fetch (dsquery k)).map
        (fun a => (a, some (c.set k (dsquery k)), 1))
  | none =>
    (fetch (dsquery k)).map (fun a => (a, none, 1))

/-- C4. Query resolution caching: with a resolution cache that misses on `k`,
the first get runs `query` once and stores the resolved id, the second get
reads the id from the cache and runs `query` zero times while leaving the
cache unchanged, and both return exactly the value the uncached
query-then-fetch path returns. -/
theorem C4_query_resolution_caching [DecidableEq η] (dsquery : η → ι)
    (fetch : ι → Option α) (c : Store η ι) (k : η)
    (hmiss : c.contents k = none) :
    queryGet1 dsquery fetch (some c) k =
      (fetch (dsquery k)).map
        (fun a => (a, some (c.set k (dsquery k)), 1)) ∧
    queryGet1 dsquery fetch (some (c.set k (dsquery k))) k =
      (fetch (dsquery k)).map
        (fun a => (a, some (c.set k (dsquery k)), 0)) ∧
    queryGet1 dsquery fetch none k =
      (fetch (dsquery k)).map (fun a => (a, none, 1)) ∧
    (queryGet1 dsquery fetch (some c) k).map (fun p => p.1) =
      (queryGet1 dsquery fetch none k).map (fun p => p.1) := by
  have hhit : (c.set k (dsquery k)).contents k = some (dsquery k) := by
    unfold Store.set
    simp
  refine ⟨?_, ?_, rfl, ?_⟩
  · simp only [queryGet1, hmiss]
  · simp only [queryGet1, hhit]
  · simp only [queryGet1, hmiss]
    cases fetch (dsquery k) <;> rfl

/-- Witness for C4 at concrete inputs: a doubling resolver over an initially
empty cache; the first get of key 5 queries once and stores id 10, the second
get reuses the cached id, and both agree with the uncached path. -/
theorem C4_query_resolution_caching_witness :
    (Store.empty : Store Nat Nat).contents 5 = none ∧
    queryGet1 (fun n : Nat => n * 2) (fun i : Nat => some (i + 1))
        (some (Store.empty : Store Nat Nat)) 5 =
      some (11, some ((Store.empty : Store Nat Nat).set 5 10), 1) ∧
    queryGet1 (fun n : Nat => n * 2) (fun i : Nat => some (i + 1))
        (some ((Store.empty : Store Nat Nat).set 5 ((5 : Nat) * 2))) 5 =
      some (11, some ((Store.empty : Store Nat Nat).set 5 10), 0) := by
  have h := C4_query_resolution_caching (fun n : Nat => n * 2)
    (fun i : Nat => some (i + 1)) (Store.empty : Store Nat Nat) 5 rfl
  exact ⟨rfl, h.1, h.2.1⟩

/-- Python `dict.update`: entries of `d2` overwrite entries of `d1`; names
absent from `d2` keep their `d1` value. -/
def dictUpdate (d1 d2 : Store η ν) : Store η ν :=
  Store.mk (fun n =>
    match d2.contents n with
    | some v => some v
    | none => d1.contents n)

/-- `getcontext` (context.py lines 78-91): start from the global side-table
entry registered for the object (`_global_context_dict.get(obj, {})`), then
`update` it with the `RUN_CONTEXT_DUNDER` attribute reachable from the object
(`getattr(obj, RUN_CONTEXT_DUNDER, {})`); a missing entry on either side is
the empty dict. -/
def getcontext (globalEntry : Option (Store η ν))
    (classAttr : Option (Store η ν)) : Store η ν :=
  dictUpdate (globalEntry.getD Store.empty) (classAttr.getD Store.empty)

/-- Counterexample to C6 as stated: for an object whose globally-registered
side-table context sets option 0 to 2 while the class-level attribute sets
option 0 to 5, the resolved context yields 5 — the class-level value, not the
instance-level side-table value claimed. -/
theorem C6_counterexample :
    (getcontext (some (Store.mk (fun n : Nat => if n = 0 then some 2 else none)))
        (some (Store.mk (fun n : Nat =>
          if n = 0 then some 5 else none)))).contents 0 = some 5 ∧
    (Store.mk (fun n : Nat => if n = 0 then some 2 else none)).contents 0 =
      some 2 ∧
    (some 5 : Option Nat) ≠ some 2 := by
  refine ⟨rfl, rfl, by decide⟩

/-- C6 amended. Run-context resolution priority: for an object with both a
globally-registered side-table context and a class-level run-context
attribute, the resolved context gives priority to the class-level attribute
values over the instance-level side-table values for every option name present
in both; side-table values are used only for names absent from the class
attribute. -/
theorem C6_context_priority_amended (g cl : Store η ν) (n : η) :
    (∀ v, cl.contents n = some v →
      (getcontext (some g) (some cl)).contents n = some v) ∧
    (cl.contents n = none →
      (getcontext (some g) (some cl)).contents n = g.contents n) := by
  constructor
  · intro v hv
    show (dictUpdate g cl).contents n = some v
    unfold dictUpdate
    simp [hv]
  · intro hv
    show (dictUpdate g cl).contents n = g.contents n
    unfold dictUpdate
    simp [hv]

/-- Witness for the amended C6 at concrete inputs: with side-table value 2 and
class-attribute value 5 for option 0, the resolved context yields 5. -/
theorem C6_context_priority_amended_witness :
    (Store.mk (fun n : Nat => if n = 0 then some 5 else none)).contents 0 =
      some 5 ∧
    (getcontext (some (Store.mk (fun n : Nat => if n = 0 then some 2 else none)))
        (some (Store.mk (fun n : Nat =>
          if n = 0 then some 5 else none)))).contents 0 = some 5 :=
  ⟨rfl, (C6_context_priority_amended
    (Store.mk (fun n : Nat => if n = 0 then some 2 else none))
    (Store.mk (fun n : Nat => if n = 0 then some 5 else none)) 0).1 5 rfl⟩

/-- Shape of the `by` argument of the `class_transforms.query` builder
(class_transforms.py lines 49-96): Python `None`, a string, a callable turning
the key into a keyword mapping, or a value of any other type. -/
inductive ByArg (V KIn : Type) where
  | noneBy
  | strBy (s : String)
  | callableBy (f : KIn → List (String × V))
  | otherBy

/-- `_Value2dict.__call__` (abc.py lines 481-488): wrap a value into the
one-entry mapping under the configured key. -/
def Value2dict (key : String) (value : V) : List (String × V) :=
  [(key, value)]

/-- Single-key get of the `_QueryDataSource` built by the `query` builder with
the default `cache=None` (abc.py lines 504-515 and 562-567), expressed through
`queryGet1`: run `query(**key)` on the mapping key and fetch by the resolved
id. -/
def queryDSGet [DecidableEq V] (dsquery : List (String × V) → ι)
    (fetch : ι → Option α) (key : List (String × V)) : Option α :=
  (queryGet1 dsquery fetch none key).map (fun p => p.1)

/-- The three possible key shapes of the source the `query` builder returns:
the key is itself a keyword mapping, a single value wrapped under a field
name, or an arbitrary input transformed into a mapping by a callable. -/
inductive BuiltSource (V KIn α : Type) where
  | keyIsMapping (get : List (String × V) → Option α)
  | keyWrapped (get : V → Option α)
  | keyTransformed (get : KIn → Option α)

/-- `class_transforms.query` builder (class_transforms.py lines 49-96) with
the default `cache=None`: `by=None` returns the `_QueryDataSource` itself
(key must be a mapping), a string `by` composes `_Value2dict(key=by) >>
QueryDataSource` (i.e. `transform_ds_input`), a callable `by` composes
`transform_ds_input(by, QueryDataSource)`, and any other `by` raises
`TypeError`. -/
def query_builder [DecidableEq V] (dsquery : List (String × V) → ι)
    (fetch : ι → Option α) : ByArg V KIn → Except String (BuiltSource V KIn α)
  | ByArg.noneBy => Except.ok (BuiltSource.keyIsMapping (queryDSGet dsquery fetch))
  | ByArg.strBy s =>
      Except.ok (BuiltSource.keyWrapped
        (modifiedInputGet1 (Value2dict s) (queryDSGet dsquery fetch)))
  | ByArg.callableBy f =>
      Except.ok (BuiltSource.keyTransformed
        (modifiedInputGet1 f (queryDSGet dsquery fetch)))
  | ByArg.otherBy => Except.error "Invalid type of `by` argument"

/-- The cache-less `_QueryDataSource` get is query-then-fetch. -/
theorem queryDSGet_eq [DecidableEq V] (dsquery : List (String × V) → ι)
    (fetch : ι → Option α) (key : List (String × V)) :
    queryDSGet dsquery fetch key = fetch (dsquery key) := by
  unfold queryDSGet queryGet1
  cases fetch (dsquery key) <;> rfl

/-- C7. Query wrapper key-shape dispatch: `by=None` yields a source whose get
takes the mapping key itself and passes it to `query`; a string `by` first
wraps the key into the one-entry mapping under that name; a callable `by`
first transforms the key into a mapping; any other `by` fails construction
with `TypeError`. -/
theorem C7_query_by_dispatch [DecidableEq V] (dsquery : List (String × V) → ι)
    (fetch : ι → Option α) :
    (∃ g, query_builder dsquery fetch (ByArg.noneBy : ByArg V KIn) =
        Except.ok (BuiltSource.keyIsMapping g) ∧
      ∀ m, g m = fetch (dsquery m)) ∧
    (∀ s : String, ∃ g, query_builder dsquery fetch
          (ByArg.strBy s : ByArg V KIn) =
        Except.ok (BuiltSource.keyWrapped g) ∧
      ∀ kv : V, g kv = fetch (dsquery [(s, kv)])) ∧
    (∀ f : KIn → List (String × V), ∃ g,
      query_builder dsquery fetch (ByArg.callableBy f) =
        Except.ok (BuiltSource.keyTransformed g) ∧
      ∀ k0 : KIn, g k0 = fetch (dsquery (f k0))) ∧
    (∃ e, query_builder dsquery fetch (ByArg.otherBy : ByArg V KIn) =
      Except.error e) := by
  refine ⟨⟨queryDSGet dsquery fetch, rfl, fun m => queryDSGet_eq dsquery fetch m⟩,
    ?_, ?_, ⟨"Invalid type of `by` argument", rfl⟩⟩
  · intro s
    refine ⟨modifiedInputGet1 (Value2dict s) (queryDSGet dsquery fetch), rfl, ?_⟩
    intro kv
    show queryDSGet dsquery fetch (Value2dict s kv) = fetch (dsquery [(s, kv)])
    rw [queryDSGet_eq]
    rfl
  · intro f
    refine ⟨modifiedInputGet1 f (queryDSGet dsquery fetch), rfl, ?_⟩
    intro k0
    show queryDSGet dsquery fetch (f k0) = fetch (dsquery (f k0))
    exact queryDSGet_eq dsquery fetch (f k0)

/-- Kind of a Python function parameter as reported by `inspect.signature`. -/
inductive ParamKind where
  | positionalOrKeyword
  | varPositional
  | varKeyword
  | keywordOnly
deriving DecidableEq

/-- A named parameter of a constituent's constructor signature. -/
structure Param where
  name : String
  kind : ParamKind
deriving DecidableEq

/-- Exceptions raised by the parameter-extraction helpers of
src/downsat/etl/class_utils.py. -/
inductive PyErr where
  | valueError
  | notImplementedError
  | keyError
deriving DecidableEq

/-- `has_args` (class_utils.py line 35): the signature contains `*args`. -/
def hasVarArgs (ps : List Param) : Bool :=
  ps.any (fun p => p.kind == ParamKind.varPositional)

/-- `has_kwargs` (class_utils.py line 36): the signature contains `**kwargs`. -/
def hasVarKwargs (ps : List Param) : Bool :=
  ps.any (fun p => p.kind == ParamKind.varKeyword)

/-- Test `has_args and has_kwargs and len(params) == 2` (class_utils.py line
37): the signature is exactly `(*args, **kwargs)` with no other parameters. -/
def isArgsKwargsOnly (ps : List Param) : Bool :=
  hasVarArgs ps && hasVarKwargs ps && (ps.length == 2)

/-- Merge of two name lists with Python dict-update semantics: keys already
present keep their position, new keys are appended in order. Used for
`defaults.update({...})` in `_callable_signature_to_fields` (class_utils.py
lines 52-55) and for `properties.update(fields)` in `_concretize` (abc.py
lines 317-318). -/
def mergeNames (acc fs : List String) : List String :=
  acc ++ fs.filter (fun n => !(acc.contains n))

/-- Test `name.startswith("_")` (class_utils.py line 47): the first character
of the name is an underscore. -/
def underscoreLeading (n : String) : Bool :=
  match n.data with
  | [] => false
  | c :: _ => c == '_'

/-- Filter `if not f.name.startswith("_")` applied to the names of the
constituent's attrs-declared fields (class_utils.py line 47). -/
def attrsPublicNames (attrsNames : List String) : List String :=
  attrsNames.filter (fun n => !(underscoreLeading n))

/-- `_callable_signature_to_fields` (class_utils.py lines 17-60). `ps` is the
parameter list of the constituent's inspected signature (`self` already
removed, lines 27-33); `attrsNames` are the names of its attrs-declared
fields in declaration order (`attrs.fields(obj)`, line 47), the empty list
when `attrs.fields` raises because the constituent is not an attrs class.
The exact `(*args, **kwargs)` form contributes no signature parameters, any
other signature with `*args` raises `ValueError`, any remaining signature
with `**kwargs` raises `NotImplementedError`; otherwise the field names are
the signature parameter names updated with the non-underscore attrs field
names (lines 51-58), which can add names beyond the inspected signature. -/
def callable_signature_to_fields (ps : List Param) (attrsNames : List String) :
    Except PyErr (List String) :=
  if isArgsKwargsOnly ps then Except.ok (attrsPublicNames attrsNames)
  else if hasVarArgs ps then Except.error PyErr.valueError
  else if hasVarKwargs ps then Except.error PyErr.notImplementedError
  else Except.ok (mergeNames (ps.map Param.name) (attrsPublicNames attrsNames))

/-- Counterexample to C8 as stated: the signature `(x, *args, **kwargs)`
contains `**kwargs` and is not exactly `(*args, **kwargs)`, yet extraction
fails with `ValueError` (the `*args` branch fires first), not with the
`NotImplementedError` the claim requires. -/
theorem C8_counterexample :
    callable_signature_to_fields
        [Param.mk "x" ParamKind.positionalOrKeyword,
         Param.mk "args" ParamKind.varPositional,
         Param.mk "kwargs" ParamKind.varKeyword] [] =
      Except.error PyErr.valueError ∧
    hasVarKwargs
        [Param.mk "x" ParamKind.positionalOrKeyword,
         Param.mk "args" ParamKind.varPositional,
         Param.mk "kwargs" ParamKind.varKeyword] = true ∧
    isArgsKwargsOnly
        [Param.mk "x" ParamKind.positionalOrKeyword,
         Param.mk "args" ParamKind.varPositional,
         Param.mk "kwargs" ParamKind.varKeyword] = false ∧
    (Except.error PyErr.valueError : Except PyErr (List String)) ≠
      Except.error PyErr.notImplementedError := by
  refine ⟨rfl, rfl, rfl, ?_⟩
  intro h
  cases h

/-- C8 amended. Constructor-signature extraction rules: any signature with
variadic `*args` other than the exact `(*args, **kwargs)` form is rejected
with `ValueError` (even when `**kwargs` is also present); a signature with
`**kwargs` and no `*args` fails with `NotImplementedError`; the exact
`(*args, **kwargs)` form contributes no parameters from the signature itself —
the extracted names are exactly the constituent's non-underscore
attrs-declared field names, hence exactly zero for a constituent that is not
an attrs class. -/
theorem C8_signature_extraction_amended (ps : List Param) (ans : List String) :
    (hasVarArgs ps = true → isArgsKwargsOnly ps = false →
      callable_signature_to_fields ps ans = Except.error PyErr.valueError) ∧
    (hasVarKwargs ps = true → hasVarArgs ps = false →
      callable_signature_to_fields ps ans =
        Except.error PyErr.notImplementedError) ∧
    (isArgsKwargsOnly ps = true → callable_signature_to_fields ps ans =
      Except.ok (attrsPublicNames ans)) ∧
    (isArgsKwargsOnly ps = true → ans = [] →
      callable_signature_to_fields ps ans = Except.ok []) := by
  refine ⟨?_, ?_, ?_, ?_⟩
  · intro ha hexact
    unfold callable_signature_to_fields
    simp [ha, hexact]
  · intro hk ha
    have hexact : isArgsKwargsOnly ps = false := by
      unfold isArgsKwargsOnly
      simp [ha]
    unfold callable_signature_to_fields
    simp [ha, hk, hexact]
  · intro hexact
    unfold callable_signature_to_fields
    simp [hexact]
  · intro hexact hans
    unfold callable_signature_to_fields
    simp [hexact, hans, attrsPublicNames]

/-- Witness for the amended C8 at concrete signatures: `(a, *args)` is
rejected with `ValueError`, `(**kwargs)` fails with `NotImplementedError`, a
`(*args, **kwargs)` attrs class with fields `w` and `_private` extracts
exactly `w`, and a non-attrs `(*args, **kwargs)` constituent extracts zero
parameters. -/
theorem C8_signature_extraction_amended_witness :
    callable_signature_to_fields
        [Param.mk "a" ParamKind.positionalOrKeyword,
         Param.mk "args" ParamKind.varPositional] [] =
      Except.error PyErr.valueError ∧
    callable_signature_to_fields [Param.mk "kwargs" ParamKind.varKeyword] [] =
      Except.error PyErr.notImplementedError ∧
    callable_signature_to_fields
        [Param.mk "args" ParamKind.varPositional,
         Param.mk "kwargs" ParamKind.varKeyword] ["w", "_private"] =
      Except.ok (attrsPublicNames ["w", "_private"]) ∧
    callable_signature_to_fields
        [Param.mk "args" ParamKind.varPositional,
         Param.mk "kwargs" ParamKind.varKeyword] [] = Except.ok [] :=
  ⟨(C8_signature_extraction_amended
      [Param.mk "a" ParamKind.positionalOrKeyword,
       Param.mk "args" ParamKind.varPositional] []).1 rfl rfl,
   (C8_signature_extraction_amended
      [Param.mk "kwargs" ParamKind.varKeyword] []).2.1 rfl rfl,
   (C8_signature_extraction_amended
      [Param.mk "args" ParamKind.varPositional,
       Param.mk "kwargs" ParamKind.varKeyword] ["w", "_private"]).2.2.1 rfl,
   (C8_signature_extraction_amended
      [Param.mk "args" ParamKind.varPositional,
       Param.mk "kwargs" ParamKind.varKeyword] []).2.2.2 rfl rfl⟩

/-- A constituent supplied to `_extract_fields` (class_utils.py lines 79-107):
a `functools.partial` wrapping another constituent with some positional
arguments and pre-bound keyword names; a class carrying its constructor
signature and the names of its attrs-declared fields in declaration order
(the empty list for a non-attrs class, where `attrs.fields` raises); or an
already-instantiated object (anything else). -/
inductive ExtractArg where
  | partialArg (func : ExtractArg) (numPosArgs : Nat) (keywords : List String)
  | typeArg (ps : List Param) (attrsNames : List String)
  | instanceArg

/-- Loop `for kw in obj.keywords: del fields[kw]` (class_utils.py lines
93-94): delete each pre-bound keyword from the extracted fields in order; a
keyword that is not a field raises `KeyError`. -/
def delFields (fields : List String) : List String → Except PyErr (List String)
  | [] => Except.ok fields
  | kw :: rest =>
    if fields.contains kw then delFields (fields.erase kw) rest
    else Except.error PyErr.keyError

/-- `_extract_fields` (class_utils.py lines 79-107): a partial with positional
args is rejected with `ValueError`, otherwise its pre-bound keywords are
deleted from the fields extracted from the wrapped object; a class has its
constructor signature extracted and checked against the forbidden internal
names; any other object contributes no fields. -/
def extract_fields (forbidden : List String) :
    ExtractArg → Except PyErr (List String)
  | ExtractArg.partialArg func numPosArgs kws =>
    if numPosArgs ≠ 0 then Except.error PyErr.valueError
    else
      match extract_fields forbidden func with
      | Except.error e => Except.error e
      | Except.ok fs => delFields fs kws
  | ExtractArg.typeArg ps attrsNames =>
    match callable_signature_to_fields ps attrsNames with
    | Except.error e => Except.error e
    | Except.ok fs =>
      if fs.any (fun n => forbidden.contains n) then Except.error PyErr.valueError
      else Except.ok fs
  | ExtractArg.instanceArg => Except.ok []

/-- Field-collection loop of `_concretize` (abc.py lines 308-319): extract
each constituent's fields (with the `_{name}_def` property names as forbidden
names) and merge them; `_check_fields_compatibility` is a no-op
(class_utils.py lines 63-76). -/
def concretize_fields (forbidden : List String) :
    List ExtractArg → Except PyErr (List String)
  | [] => Except.ok []
  | obj :: rest =>
    match extract_fields forbidden obj with
    | Except.error e => Except.error e
    | Except.ok fs =>
      match concretize_fields forbidden rest with
      | Except.error e => Except.error e
      | Except.ok restFs => Except.ok (mergeNames fs restFs)

/-- Constructor parameter names of the class synthesized by
`_InstantiateClassMixin._concretize` (abc.py lines 292-332) from named
constituents: the `_{name}_def` property names are forbidden as parameter
names, and the parameter set is the merge of the constituents' extracted
fields. -/
def concretize_params (objs : List (String × ExtractArg)) :
    Except PyErr (List String) :=
  concretize_fields (objs.map (fun p => "_" ++ p.1 ++ "_def"))
    (objs.map Prod.snd)

/-- Deleting pairwise-distinct keywords that are all present removes exactly
those names from the field list. -/
theorem delFields_ok :
    ∀ (kws fields : List String), kws.Nodup → (∀ kw ∈ kws, kw ∈ fields) →
      delFields fields kws =
        Except.ok (kws.foldl (fun fs kw => fs.erase kw) fields) := by
  intro kws
  induction kws with
  | nil => intro fields _ _; rfl
  | cons kw rest ih =>
    intro fields hnodup hsub
    have hmem : kw ∈ fields := hsub kw (List.mem_cons_self kw rest)
    have hcontains : fields.contains kw = true :=
      List.elem_eq_true_of_mem hmem
    unfold delFields
    rw [hcontains]
    simp only [if_true]
    have hrest : ∀ kw2 ∈ rest, kw2 ∈ fields.erase kw := by
      intro kw2 h2
      have hne : kw2 ≠ kw := by
        intro heq
        exact (List.nodup_cons.mp hnodup).1 (heq ▸ h2)
      exact (List.mem_erase_of_ne hne).mpr (hsub kw2 (List.mem_cons_of_mem kw h2))
    rw [ih (fields.erase kw) (List.nodup_cons.mp hnodup).2 hrest]
    rfl

/-- C10. Pre-bound parameters are excluded from synthesized constructors: a
constituent given as a `functools.partial` of a class with keyword bindings
contributes the class's named parameters minus the pre-bound keyword names to
the synthesized constructor; a partial carrying positional args is rejected
with `ValueError` at composition time. -/
theorem C10_partial_prebound_excluded (cname : String) (ps : List Param)
    (ans : List String) (kws : List String) (n : Nat)
    (hargs : hasVarArgs ps = false) (hkwargs : hasVarKwargs ps = false)
    (hnodup : kws.Nodup)
    (hsub : ∀ kw ∈ kws,
      kw ∈ mergeNames (ps.map Param.name) (attrsPublicNames ans))
    (hforb : ∀ nm ∈ mergeNames (ps.map Param.name) (attrsPublicNames ans),
      nm ≠ "_" ++ cname ++ "_def")
    (hpos : n ≠ 0) :
    concretize_params
        [(cname, ExtractArg.partialArg (ExtractArg.typeArg ps ans) 0 kws)] =
      Except.ok (kws.foldl (fun fs kw => fs.erase kw)
        (mergeNames (ps.map Param.name) (attrsPublicNames ans))) ∧
    concretize_params
        [(cname, ExtractArg.partialArg (ExtractArg.typeArg ps ans) n kws)] =
      Except.error PyErr.valueError := by
  have hsig : callable_signature_to_fields ps ans =
      Except.ok (mergeNames (ps.map Param.name) (attrsPublicNames ans)) := by
    have hexact : isArgsKwargsOnly ps = false := by
      unfold isArgsKwargsOnly
      simp [hargs]
    unfold callable_signature_to_fields
    simp [hargs, hkwargs, hexact]
  have hext : extract_fields ["_" ++ cname ++ "_def"]
      (ExtractArg.typeArg ps ans) =
      Except.ok (mergeNames (ps.map Param.name) (attrsPublicNames ans)) := by
    unfold extract_fields
    rw [hsig]
    simp
    intro hmem
    exact hforb _ hmem rfl
  have hpartial : extract_fields ["_" ++ cname ++ "_def"]
      (ExtractArg.partialArg (ExtractArg.typeArg ps ans) 0 kws) =
      delFields (mergeNames (ps.map Param.name) (attrsPublicNames ans)) kws := by
    rw [extract_fields, hext]
    simp
  constructor
  · show concretize_fields ["_" ++ cname ++ "_def"]
        [ExtractArg.partialArg (ExtractArg.typeArg ps ans) 0 kws] = _
    rw [concretize_fields, hpartial,
      delFields_ok kws (mergeNames (ps.map Param.name) (attrsPublicNames ans))
        hnodup hsub]
    simp [concretize_fields, mergeNames]
  · show concretize_fields ["_" ++ cname ++ "_def"]
        [ExtractArg.partialArg (ExtractArg.typeArg ps ans) n kws] = _
    rw [concretize_fields, extract_fields]
    simp [hpos]

/-- Witness for C10 at concrete inputs: a partial of an attrs class with
signature parameters `(x, y, z)` and attrs fields `w` and `_private`,
pre-binding `y`, contributes exactly `x`, `z` and `w` to the synthesized
constructor, and the same partial with one positional argument is rejected. -/
theorem C10_partial_prebound_excluded_witness :
    concretize_params [("datasource", ExtractArg.partialArg
        (ExtractArg.typeArg
          [Param.mk "x" ParamKind.positionalOrKeyword,
           Param.mk "y" ParamKind.positionalOrKeyword,
           Param.mk "z" ParamKind.positionalOrKeyword]
          ["w", "_private"]) 0 ["y"])] =
      Except.ok (["y"].foldl (fun fs kw => fs.erase kw)
        (mergeNames ["x", "y", "z"] (attrsPublicNames ["w", "_private"]))) ∧
    concretize_params [("datasource", ExtractArg.partialArg
        (ExtractArg.typeArg
          [Param.mk "x" ParamKind.positionalOrKeyword,
           Param.mk "y" ParamKind.positionalOrKeyword,
           Param.mk "z" ParamKind.positionalOrKeyword]
          ["w", "_private"]) 1 ["y"])] =
      Except.error PyErr.valueError :=
  C10_partial_prebound_excluded "datasource"
    [Param.mk "x" ParamKind.positionalOrKeyword,
     Param.mk "y" ParamKind.positionalOrKeyword,
     Param.mk "z" ParamKind.positionalOrKeyword] ["w", "_private"] ["y"] 1
    rfl rfl (by decide) (by decide) (by decide) (by decide)

/-- Heap of Python dict objects: metadata dictionaries are mutable objects
aliased by address, which is what makes the `.copy()` inside `getmeta`
observable. An address is an index into the cell list. -/
structure MHeap (ν : Type) where
  cells : List (Store String ν)

/-- Read the dict stored at an address (an out-of-range address reads the
empty dict; the theorems only use valid addresses). -/
def MHeap.read (h : MHeap ν) (a : Nat) : Store String ν :=
  (h.cells[a]?).getD Store.empty

/-- Overwrite the dict stored at an address in place. -/
def MHeap.write (h : MHeap ν) (a : Nat) (d : Store String ν) : MHeap ν :=
  MHeap.mk (h.cells.set a d)

/-- Dict reachable through an optional address: the empty dict when absent. -/
def optRead (h : MHeap ν) (o : Option Nat) : Store String ν :=
  match o with
  | some a => h.read a
  | none => Store.empty

/-- `getmeta` (metadata.py lines 65-87) over the dict heap. `globalAddr` is
the address of the `_global_metadata_dict` entry for the object (if any),
`localAddr` the address of the object's local metadata dict
(`getattr(obj, METADATA_DUNDER)`; `none` models the `AttributeError` branch).
`_global_metadata_dict.get(obj, {}).copy()` allocates a fresh dict holding the
entry's contents, which is then updated in place with the local metadata
(local entries overwriting global ones); the address of the fresh dict is
returned together with the resulting heap. -/
def getmeta (h : MHeap ν) (globalAddr localAddr : Option Nat) : MHeap ν × Nat :=
  let h1 := MHeap.mk (h.cells ++ [optRead h globalAddr])
  let r := h.cells.length
  match localAddr with
  | none => (h1, r)
  | some la => (h1.write r (dictUpdate (h1.read r) (h1.read la)), r)

/-- Appending fresh cells does not change existing cells. -/
theorem MHeap.read_append (h : MHeap ν) (ds : List (Store String ν)) (a : Nat)
    (ha : a < h.cells.length) :
    (MHeap.mk (h.cells ++ ds)).read a = h.read a := by
  unfold MHeap.read
  simp [List.getElem?_append, ha]

/-- Reading the address of a freshly appended cell yields that cell. -/
theorem MHeap.read_concat_self (h : MHeap ν) (d : Store String ν) :
    (MHeap.mk (h.cells ++ [d])).read h.cells.length = d := by
  unfold MHeap.read
  rw [List.getElem?_concat_length h.cells d]
  rfl

/-- Reading back an in-range address just written yields the written dict. -/
theorem MHeap.read_write_self (h : MHeap ν) (a : Nat) (d : Store String ν)
    (ha : a < h.cells.length) : (h.write a d).read a = d := by
  unfold MHeap.write MHeap.read
  simp [List.getElem?_set_self, ha]

/-- Writing one address does not change the dict at a different address. -/
theorem MHeap.read_write_ne (h : MHeap ν) (a b : Nat) (d : Store String ν)
    (hne : a ≠ b) : (h.write a d).read b = h.read b := by
  unfold MHeap.write MHeap.read
  rw [List.getElem?_set_ne hne]

/-- The returned address of `getmeta` is the first fresh address. -/
theorem getmeta_addr (h : MHeap ν) (g l : Option Nat) :
    (getmeta h g l).2 = h.cells.length := by
  unfold getmeta
  cases l <;> rfl

/-- The heap after `getmeta` has exactly one extra cell. -/
theorem getmeta_length (h : MHeap ν) (g l : Option Nat) :
    (getmeta h g l).1.cells.length = h.cells.length + 1 := by
  unfold getmeta
  cases l with
  | none => simp
  | some la => simp [MHeap.write]

/-- The dict `getmeta` returns holds the global entry updated with the local
entry (local priority), provided the two addresses are valid. -/
theorem getmeta_read (h : MHeap ν) (g l : Option Nat)
    (_hg : ∀ a, g = some a → a < h.cells.length)
    (hl : ∀ a, l = some a → a < h.cells.length) :
    (getmeta h g l).1.read (getmeta h g l).2 =
      dictUpdate (optRead h g) (optRead h l) := by
  unfold getmeta
  cases l with
  | none =>
    simp only
    rw [MHeap.read_concat_self]
    apply Store.ext
    intro n
    unfold dictUpdate optRead Store.empty
    simp
  | some la =>
    simp only
    have hla : la < h.cells.length := hl la rfl
    have hr : (MHeap.mk (h.cells ++ [optRead h g])).cells.length =
        h.cells.length + 1 := by simp
    rw [MHeap.read_write_self _ _ _ (by rw [hr]; omega)]
    rw [MHeap.read_concat_self, MHeap.read_append h _ la hla]
    rfl

/-- Dicts at valid addresses are untouched by `getmeta` followed by a
mutation of the returned dict. -/
theorem getmeta_frame (h : MHeap ν) (g l : Option Nat) (d2 : Store String ν)
    (a : Nat) (ha : a < h.cells.length) :
    (MHeap.write (getmeta h g l).1 (getmeta h g l).2 d2).read a = h.read a := by
  have hne : (getmeta h g l).2 ≠ a := by
    rw [getmeta_addr]
    omega
  rw [MHeap.read_write_ne _ _ _ _ hne]
  unfold getmeta
  cases l with
  | none =>
    simp only
    exact MHeap.read_append h _ a ha
  | some la =>
    simp only
    have hne2 : h.cells.length ≠ a := by omega
    rw [MHeap.read_write_ne _ _ _ _ hne2]
    exact MHeap.read_append h _ a ha

/-- C9. Metadata retrieval returns a detached merged mapping: `getmeta`
returns a dict merging the global side-table entry and the object's local
metadata with local entries taking priority, and mutating the returned dict
neither changes the stored metadata nor the mapping a subsequent `getmeta` on
the same object returns. -/
theorem C9_getmeta_detached (h : MHeap ν) (g l : Option Nat)
    (d2 : Store String ν)
    (hg : ∀ a, g = some a → a < h.cells.length)
    (hl : ∀ a, l = some a → a < h.cells.length) :
    (getmeta h g l).1.read (getmeta h g l).2 =
      dictUpdate (optRead h g) (optRead h l) ∧
    (∀ a, (g = some a ∨ l = some a) →
      (MHeap.write (getmeta h g l).1 (getmeta h g l).2 d2).read a = h.read a) ∧
    (getmeta (MHeap.write (getmeta h g l).1 (getmeta h g l).2 d2) g l).1.read
        (getmeta (MHeap.write (getmeta h g l).1 (getmeta h g l).2 d2) g l).2 =
      (getmeta h g l).1.read (getmeta h g l).2 := by
  have hvalid : ∀ a, (g = some a ∨ l = some a) → a < h.cells.length := by
    intro a ha2
    rcases ha2 with ha2 | ha2
    · exact hg a ha2
    · exact hl a ha2
  refine ⟨getmeta_read h g l hg hl, ?_, ?_⟩
  · intro a ha2
    exact getmeta_frame h g l d2 a (hvalid a ha2)
  · set h2 := MHeap.write (getmeta h g l).1 (getmeta h g l).2 d2 with hh2
    have hlen2 : h2.cells.length = h.cells.length + 1 := by
      rw [hh2]
      unfold MHeap.write
      simp [getmeta_length]
    have hg2 : ∀ a, g = some a → a < h2.cells.length := by
      intro a ha2
      rw [hlen2]
      exact Nat.lt_succ_of_lt (hg a ha2)
    have hl2 : ∀ a, l = some a → a < h2.cells.length := by
      intro a ha2
      rw [hlen2]
      exact Nat.lt_succ_of_lt (hl a ha2)
    rw [getmeta_read h2 g l hg2 hl2, getmeta_read h g l hg hl]
    have hog : optRead h2 g = optRead h g := by
      cases hcg : g with
      | none => rfl
      | some a =>
        unfold optRead
        exact getmeta_frame h g l d2 a (hg a hcg)
    have hol : optRead h2 l = optRead h l := by
      cases hcl : l with
      | none => rfl
      | some a =>
        unfold optRead
        exact getmeta_frame h g l d2 a (hl a hcl)
    rw [hog, hol]

/-- Witness for C9 at concrete inputs: a heap holding a global entry at
address 0 mapping "a" to 1 and a local entry at address 1 mapping "a" to 2 and
"b" to 3; the merged mapping prefers the local entry and survives a mutation
of the returned dict. -/
theorem C9_getmeta_detached_witness :
    (getmeta
        (MHeap.mk [Store.mk (fun n => if n = "a" then some 1 else none),
          Store.mk (fun n => if n = "a" then some 2 else
            if n = "b" then some 3 else none)])
        (some 0) (some 1)).1.read
      (getmeta
        (MHeap.mk [Store.mk (fun n => if n = "a" then some 1 else none),
          Store.mk (fun n => if n = "a" then some 2 else
            if n = "b" then some 3 else none)])
        (some 0) (some 1)).2 =
      dictUpdate
        (optRead (MHeap.mk [Store.mk (fun n => if n = "a" then some 1 else none),
          Store.mk (fun n => if n = "a" then some 2 else
            if n = "b" then some 3 else none)]) (some 0))
        (optRead (MHeap.mk [Store.mk (fun n => if n = "a" then some 1 else none),
          Store.mk (fun n => if n = "a" then some 2 else
            if n = "b" then some 3 else none)]) (some 1)) :=
  (C9_getmeta_detached
    (MHeap.mk [Store.mk (fun n => if n = "a" then some 1 else none),
      Store.mk (fun n => if n = "a" then some 2 else
        if n = "b" then some 3 else none)])
    (some 0) (some 1) Store.empty
    (fun a ha => by cases ha; decide)
    (fun a ha => by cases ha; decide)).1

end DownsatEtl
